import Mathlib

/-!
# FluxAman: post ingestion, persistence and feed rendering

A shallow embedding of `server.js` (Express handlers, multer storage naming, the
`posts.json` repository) and of the feed part of `script.js` (`validatePost`,
`createPost`, `renderPost`, `loadPosts`), followed by the properties of the
specification that were checked against it.

JavaScript strings are embedded as `String`; the clock (`Date.now()`), the
faults of the file system and the locale formatting of dates are inputs of the
model.  Numbers are the non-negative integers: the only numbers the program
creates are `Date.now()` readings, which are integers below `2 ^ 53` and are
written in plain decimal digits.  `JSON.stringify` and `JSON.parse` are
embedded as a printer and a recursive-descent reader of JSON text, and the
content of `posts.json` is the text itself, so that what the repository returns
is what the reader makes of what the printer wrote.
-/

namespace FluxAman

/-! ## JavaScript primitives used by the source -/

/-- The decimal digit character of `d`, for `d < 10`. -/
def digitChar (d : Nat) : Char := Char.ofNat (48 + d)

/-- Digits of `n`, most significant first, pushed in front of `acc`. -/
def decimalAux : Nat → Nat → List Char → List Char
  | 0, _, acc => acc
  | fuel + 1, n, acc =>
    if n < 10 then digitChar n :: acc
    else decimalAux fuel (n / 10) (digitChar (n % 10) :: acc)

/-- Number-to-string conversion of a non-negative integer, as in `Date.now() + '-'`
and in `JSON.stringify` of an `id`. -/
def decimal (n : Nat) : List Char := decimalAux (n + 1) n []

/-- Decimal rendering as a string. -/
def numberToString (n : Nat) : String := String.mk (decimal n)

/-- The call `s.startsWith(p)` of `String.prototype.startsWith`. -/
def startsWith (s p : String) : Bool := p.data.isPrefixOf s.data

/-- White space and line terminators removed by `String.prototype.trim`. -/
def isTrimChar (c : Char) : Bool :=
  c.toNat = 0x09 || c.toNat = 0x0A || c.toNat = 0x0B || c.toNat = 0x0C || c.toNat = 0x0D
    || c.toNat = 0x20 || c.toNat = 0xA0 || c.toNat = 0x1680
    || (0x2000 ≤ c.toNat && c.toNat ≤ 0x200A)
    || c.toNat = 0x2028 || c.toNat = 0x2029 || c.toNat = 0x202F || c.toNat = 0x205F
    || c.toNat = 0x3000 || c.toNat = 0xFEFF

/-- The call `s.trim()`. -/
def trim (s : String) : String :=
  String.mk ((s.data.dropWhile isTrimChar).reverse.dropWhile isTrimChar).reverse

/-- Decimal rendering of `n` left-padded with zeros to `width` characters. -/
def padZero (width n : Nat) : List Char :=
  List.replicate (width - (decimal n).length) '0' ++ decimal n

/-- The call `new Date(ms).toISOString()` for a time value `ms` (milliseconds since the epoch,
UTC): `YYYY-MM-DDTHH:mm:ss.sssZ`, with the expanded year `+YYYYYY` beyond year 9999. -/
def toISOString (ms : Nat) : String :=
  let days := ms / 86400000
  let rem := ms % 86400000
  let z := days + 719468
  let era := z / 146097
  let doe := z % 146097
  let yoe := (doe - doe / 1460 + doe / 36524 - doe / 146096) / 365
  let doy := doe - (365 * yoe + yoe / 4 - yoe / 100)
  let mp := (5 * doy + 2) / 153
  let day := doy - (153 * mp + 2) / 5 + 1
  let month := if mp < 10 then mp + 3 else mp - 9
  let year := if month ≤ 2 then yoe + era * 400 + 1 else yoe + era * 400
  let yearText := if year ≤ 9999 then padZero 4 year else '+' :: padZero 6 year
  String.mk (yearText ++ '-' :: padZero 2 month ++ '-' :: padZero 2 day
    ++ 'T' :: padZero 2 (rem / 3600000) ++ ':' :: padZero 2 (rem / 60000 % 60)
    ++ ':' :: padZero 2 (rem / 1000 % 60) ++ '.' :: padZero 3 (rem % 1000) ++ ['Z'])

/-! ## JSON values, `JSON.stringify(value, null, 2)` and `JSON.parse` -/

/-- JSON values.  Object members are kept in order of appearance, duplicate keys included;
the post objects of the program have six distinct keys. -/
inductive Json where
  | null
  | bool (b : Bool)
  | num (n : Nat)
  | str (s : String)
  | arr (items : List Json)
  | obj (members : List (String × Json))

/-- Lower-case hexadecimal digit of `d`, for `d < 16`. -/
def hexDigit (d : Nat) : Char := if d < 10 then Char.ofNat (48 + d) else Char.ofNat (87 + d)

/-- The escape `\uXXXX` of a code unit. -/
def unicodeEscape (n : Nat) : List Char :=
  ['\\', 'u', hexDigit (n / 4096 % 16), hexDigit (n / 256 % 16), hexDigit (n / 16 % 16),
    hexDigit (n % 16)]

/-- Escaping of one character by `QuoteJSONString`. -/
def escapeChar (c : Char) : List Char :=
  if c = '"' then ['\\', '"']
  else if c = '\\' then ['\\', '\\']
  else if c.toNat = 8 then ['\\', 'b']
  else if c.toNat = 12 then ['\\', 'f']
  else if c.toNat = 10 then ['\\', 'n']
  else if c.toNat = 13 then ['\\', 'r']
  else if c.toNat = 9 then ['\\', 't']
  else if c.toNat < 32 then unicodeEscape c.toNat
  else [c]

/-- Escaped characters of a string, without the surrounding quotes. -/
def escapeChars : List Char → List Char
  | [] => []
  | c :: cs => escapeChar c ++ escapeChars cs

/-- The JSON string literal of `s` (`QuoteJSONString`). -/
def quote (s : String) : List Char := '"' :: escapeChars s.data ++ ['"']

/-- Indentation of `n` spaces. -/
def spaces (n : Nat) : List Char := List.replicate n ' '

mutual
/-- Text of a value at the current indentation `ind`, with a gap of two spaces
(`SerializeJSONProperty`). -/
def Json.render : Nat → Json → List Char
  | _, .null => ['n', 'u', 'l', 'l']
  | _, .bool true => ['t', 'r', 'u', 'e']
  | _, .bool false => ['f', 'a', 'l', 's', 'e']
  | _, .num n => decimal n
  | _, .str s => quote s
  | _, .arr [] => ['[', ']']
  | ind, .arr (x :: xs) =>
    '[' :: '\n' :: spaces (ind + 2) ++ Json.render (ind + 2) x ++ Json.renderItems (ind + 2) xs
      ++ '\n' :: spaces ind ++ [']']
  | _, .obj [] => ['{', '}']
  | ind, .obj ((k, v) :: ms) =>
    '{' :: '\n' :: spaces (ind + 2) ++ quote k ++ ':' :: ' ' :: Json.render (ind + 2) v
      ++ Json.renderMembers (ind + 2) ms ++ '\n' :: spaces ind ++ ['}']
/-- The remaining elements of an array, each after the separator `",\n" + indent`. -/
def Json.renderItems : Nat → List Json → List Char
  | _, [] => []
  | ind, x :: xs => ',' :: '\n' :: spaces ind ++ Json.render ind x ++ Json.renderItems ind xs
/-- The remaining members of an object, each after the separator `",\n" + indent`. -/
def Json.renderMembers : Nat → List (String × Json) → List Char
  | _, [] => []
  | ind, (k, v) :: ms =>
    ',' :: '\n' :: spaces ind ++ quote k ++ ':' :: ' ' :: Json.render ind v
      ++ Json.renderMembers ind ms
end

/-- The call `JSON.stringify(value, null, 2)`. -/
def jsonStringify (v : Json) : String := String.mk (Json.render 0 v)

/-- JSON white space: tab, line feed, carriage return, space. -/
def isWs (c : Char) : Bool := c = ' ' || c = '\n' || c = '\r' || c = '\t'

/-- Input after leading white space. -/
def skipWs : List Char → List Char
  | [] => []
  | c :: cs => if isWs c then skipWs cs else c :: cs

/-- Value of a hexadecimal digit. -/
def hexValue (c : Char) : Option Nat :=
  if 48 ≤ c.toNat ∧ c.toNat ≤ 57 then some (c.toNat - 48)
  else if 97 ≤ c.toNat ∧ c.toNat ≤ 102 then some (c.toNat - 87)
  else if 65 ≤ c.toNat ∧ c.toNat ≤ 70 then some (c.toNat - 55)
  else none

/-- Code unit written as four hexadecimal digits. -/
def hex4 (a b c d : Char) : Option Nat :=
  match hexValue a, hexValue b, hexValue c, hexValue d with
  | some x, some y, some z, some w => some (x * 4096 + y * 256 + z * 16 + w)
  | _, _, _, _ => none

/-- The character of a single-character escape `\e`. -/
def unescape (e : Char) : Option Char :=
  if e = '"' then some '"'
  else if e = '\\' then some '\\'
  else if e = '/' then some '/'
  else if e = 'b' then some (Char.ofNat 8)
  else if e = 'f' then some (Char.ofNat 12)
  else if e = 'n' then some '\n'
  else if e = 'r' then some '\r'
  else if e = 't' then some '\t'
  else none

/-- Puts a decoded character in front of the rest of a decoded string. -/
def consChar (c : Char) : Except String (List Char × List Char) → Except String (List Char × List Char)
  | .ok (s, rest) => .ok (c :: s, rest)
  | .error e => .error e

/-- What the start of the rest of a string literal is: its closing quote, one more character
of the string, or an error. -/
inductive StringStep where
  | close (rest : List Char)
  | char (c : Char) (rest : List Char)
  | fail (message : String)

/-- The escape `\uXXXX`, read after `\u`.  A surrogate pair of two escapes is one character; a
lone surrogate escape has no counterpart in `String` and is reported as an error. -/
def decodeUnicodeEscape (cs : List Char) : StringStep :=
  match cs with
  | a :: b :: c :: d :: cs1 =>
    match hex4 a b c d with
    | none => .fail "Bad Unicode escape in JSON"
    | some n =>
      if n < 0xD800 ∨ 0xDFFF < n then .char (Char.ofNat n) cs1
      else
        match cs1 with
        | b1 :: u1 :: a1 :: b2 :: c1 :: d1 :: cs2 =>
          match hex4 a1 b2 c1 d1 with
          | none => .fail "Bad Unicode escape in JSON"
          | some m =>
            if b1 = '\\' ∧ u1 = 'u' ∧ n < 0xDC00 ∧ 0xDC00 ≤ m ∧ m ≤ 0xDFFF then
              .char (Char.ofNat (0x10000 + (n - 0xD800) * 1024 + (m - 0xDC00))) cs2
            else .fail "Lone surrogate escape in JSON"
        | _ => .fail "Lone surrogate escape in JSON"
  | _ => .fail "Bad Unicode escape in JSON"

/-- One step of reading a string literal after its opening quote. -/
def stringStep : List Char → StringStep
  | [] => .fail "Unterminated string in JSON"
  | c :: cs =>
    if c = '"' then .close cs
    else if c = '\\' then
      match cs with
      | [] => .fail "Unterminated string in JSON"
      | e :: cs1 =>
        if e = 'u' then decodeUnicodeEscape cs1
        else
          match unescape e with
          | some ch => .char ch cs1
          | none => .fail "Bad escaped character in JSON"
    else if c.toNat < 32 then .fail "Bad control character in string literal in JSON"
    else .char c cs

/-- Characters of a JSON string literal after its opening quote, in at most `fuel` steps: the
decoded string and the input after the closing quote. -/
def parseStringFuel : Nat → List Char → Except String (List Char × List Char)
  | 0, _ => .error "Unterminated string in JSON"
  | fuel + 1, cs =>
    match stringStep cs with
    | .close rest => .ok ([], rest)
    | .char c rest => consChar c (parseStringFuel fuel rest)
    | .fail message => .error message

/-- A JSON string literal after its opening quote; every step reads at least one character,
so the length of the input is enough fuel. -/
def parseStringBody (cs : List Char) : Except String (List Char × List Char) :=
  parseStringFuel cs.length cs

/-- Value of a sequence of decimal digits. -/
def digitsValue (ds : List Char) : Nat := ds.foldl (fun acc c => 10 * acc + (c.toNat - 48)) 0

/-- A JSON number.  Only unsigned integer literals are given a value; a sign, a fraction or an
exponent denotes a floating-point number, which the embedding does not represent. -/
def parseNumber (cs : List Char) : Except String (Json × List Char) :=
  match cs.takeWhile Char.isDigit with
  | [] => .error "Unexpected token in JSON"
  | d :: ds =>
    if d = '0' ∧ ds ≠ [] then .error "Unexpected number in JSON"
    else
      match cs.dropWhile Char.isDigit with
      | [] => .ok (.num (digitsValue (d :: ds)), [])
      | c :: rest =>
        if c = '.' ∨ c = 'e' ∨ c = 'E' then .error "Number with fraction or exponent in JSON"
        else .ok (.num (digitsValue (d :: ds)), c :: rest)

/-- Result of reading the keyword `word` for the value `v`. -/
def parseKeyword (word : List Char) (v : Json) (cs : List Char) : Except String (Json × List Char) :=
  if word.isPrefixOf cs then .ok (v, cs.drop word.length) else .error "Unexpected token in JSON"

mutual
/-- One JSON value, with the input that follows it.  `fuel` bounds the number of nested calls;
the length of the input is always enough. -/
def parseValue : Nat → List Char → Except String (Json × List Char)
  | 0, _ => .error "Maximum call stack size exceeded"
  | fuel + 1, cs =>
    match skipWs cs with
    | [] => .error "Unexpected end of JSON input"
    | c :: rest =>
      if c = '[' then
        match skipWs rest with
        | [] => .error "Unexpected end of JSON input"
        | d :: rest1 =>
          if d = ']' then .ok (.arr [], rest1)
          else
            match parseItems fuel (d :: rest1) with
            | .ok (xs, r) => .ok (.arr xs, r)
            | .error e => .error e
      else if c = '{' then
        match skipWs rest with
        | [] => .error "Unexpected end of JSON input"
        | d :: rest1 =>
          if d = '}' then .ok (.obj [], rest1)
          else
            match parseMembers fuel (d :: rest1) with
            | .ok (ms, r) => .ok (.obj ms, r)
            | .error e => .error e
      else if c = '"' then
        match parseStringBody rest with
        | .ok (s, r) => .ok (.str (String.mk s), r)
        | .error e => .error e
      else if c = 'n' then parseKeyword ['n', 'u', 'l', 'l'] .null (c :: rest)
      else if c = 't' then parseKeyword ['t', 'r', 'u', 'e'] (.bool true) (c :: rest)
      else if c = 'f' then parseKeyword ['f', 'a', 'l', 's', 'e'] (.bool false) (c :: rest)
      else parseNumber (c :: rest)
/-- The elements of an array after its opening bracket, up to the closing bracket. -/
def parseItems : Nat → List Char → Except String (List Json × List Char)
  | 0, _ => .error "Maximum call stack size exceeded"
  | fuel + 1, cs =>
    match parseValue fuel cs with
    | .error e => .error e
    | .ok (v, r) =>
      match skipWs r with
      | [] => .error "Unexpected end of JSON input"
      | c :: r1 =>
        if c = ',' then
          match parseItems fuel r1 with
          | .ok (vs, r2) => .ok (v :: vs, r2)
          | .error e => .error e
        else if c = ']' then .ok ([v], r1)
        else .error "Unexpected token in JSON"
/-- The members of an object after its opening brace, up to the closing brace. -/
def parseMembers : Nat → List Char → Except String (List (String × Json) × List Char)
  | 0, _ => .error "Maximum call stack size exceeded"
  | fuel + 1, cs =>
    match skipWs cs with
    | [] => .error "Unexpected end of JSON input"
    | q :: r =>
      if q = '"' then
        match parseStringBody r with
        | .error e => .error e
        | .ok (k, r1) =>
          match skipWs r1 with
          | [] => .error "Unexpected end of JSON input"
          | c :: r2 =>
            if c = ':' then
              match parseValue fuel r2 with
              | .error e => .error e
              | .ok (v, r3) =>
                match skipWs r3 with
                | [] => .error "Unexpected end of JSON input"
                | c1 :: r4 =>
                  if c1 = ',' then
                    match parseMembers fuel r4 with
                    | .ok (ms, r5) => .ok ((String.mk k, v) :: ms, r5)
                    | .error e => .error e
                  else if c1 = '}' then .ok ([(String.mk k, v)], r4)
                  else .error "Unexpected token in JSON"
            else .error "Unexpected token in JSON"
      else .error "Unexpected token in JSON"
end

/-- The call `JSON.parse(text)`: the value, or the message of the `SyntaxError` thrown.  The
wording of the messages of the engine is not modelled. -/
def jsonParse (text : String) : Except String Json :=
  match parseValue (text.data.length + 1) text.data with
  | .error e => .error e
  | .ok (v, rest) =>
    match skipWs rest with
    | [] => .ok v
    | _ :: _ => .error "Unexpected non-whitespace character after JSON"

mutual
/-- Number of nested calls that `parseValue` needs to read back a rendered value. -/
def Json.size : Json → Nat
  | .arr items => 1 + Json.sizeItems items
  | .obj members => 1 + Json.sizeMembers members
  | _ => 1
/-- Number of nested calls that `parseItems` needs. -/
def Json.sizeItems : List Json → Nat
  | [] => 0
  | x :: xs => 1 + Json.size x + Json.sizeItems xs
/-- Number of nested calls that `parseMembers` needs. -/
def Json.sizeMembers : List (String × Json) → Nat
  | [] => 0
  | (_, v) :: ms => 1 + Json.size v + Json.sizeMembers ms
end

/-- The input `rest` cannot continue a number literal: it is empty or its first character is
not a digit, a decimal point or an exponent mark. -/
def EndsNumber (rest : List Char) : Prop :=
  ∀ c r, rest = c :: r → c.isDigit = false ∧ c ≠ '.' ∧ c ≠ 'e' ∧ c ≠ 'E'

/-! ## `server.js` -/

/-- The file part named `media` of a multipart submission as the parser of multer reports it:
`originalname` is the name it keeps of the declared file name and `mimetype` the type it reads
from the header of the part.  Both are inputs of the model; how the parser derives them from
what the client declared is not part of the source. -/
structure FilePart where
  originalname : String
  mimetype : String
  deriving DecidableEq

/-- The object `req.file` that `upload.single('media')` hands to the handler. -/
structure MulterFile where
  filename : String
  originalname : String
  mimetype : String
  deriving DecidableEq

/-- A submission to `POST /api/posts` as multer parsed it: the form field `text` of `req.body`
and the optional file part. -/
structure Request where
  text : Option String
  media : Option FilePart
  deriving DecidableEq

/-- What a call of `fs.writeFileSync` does: it writes the data, or it throws before the file
is opened, or it throws after the file was truncated and `written` characters were written. -/
inductive WriteOutcome where
  | done
  | refused (message : String)
  | interrupted (message : String) (written : Nat)
  deriving DecidableEq

/-- What one request observes of its environment: the three clock readings (`Date.now()` in
the multer `filename` callback, `Date.now()` for the `id`, `new Date()` for the `timestamp`),
the error thrown by `fs.readFileSync` if any, and the outcome of `fs.writeFileSync`. -/
structure Env where
  nowFilename : Nat
  nowId : Nat
  nowTimestamp : Nat
  readFault : Option String
  write : WriteOutcome
  deriving DecidableEq

/-- A post record, the object literal `newPost`. -/
structure Post where
  id : Nat
  text : String
  media : Option String
  mediaType : Option String
  originalName : Option String
  timestamp : String
  deriving DecidableEq

/-- An HTTP response body. -/
inductive Body where
  | json (value : Json)
  | text (content : String)
  | uncaught (message : String)

/-- An HTTP response: `uncaught` stands for the page of the default error handler of Express. -/
structure Response where
  status : Nat
  body : Body

/-- The `filename` callback of `multer.diskStorage`: `Date.now() + '-' + file.originalname`. -/
def storageFilename (now : Nat) (originalname : String) : String :=
  numberToString now ++ "-" ++ originalname

/-- The object `req.file` that the middleware `upload.single('media')` builds from a parsed
file part: the name and type that the parser reported, and the `filename` that the storage
callback computes from that name.  The bytes of the file and their storage under `uploads/`
are not part of the model. -/
def uploadSingle (env : Env) (part : FilePart) : MulterFile :=
  { filename := storageFilename env.nowFilename part.originalname
    originalname := part.originalname
    mimetype := part.mimetype }

/-- The function `getMediaType`. -/
def getMediaType (mimetype : String) : String :=
  if startsWith mimetype "image/" then "image"
  else if startsWith mimetype "video/" then "video"
  else "document"

/-- The expression `text || ''`. -/
def textOrEmpty (text : Option String) : String :=
  match text with
  | none => ""
  | some t => if t = "" then "" else t

/-- The object literal `newPost` of the `POST /api/posts` handler. -/
def newPost (env : Env) (text : Option String) (file : Option MulterFile) : Post :=
  { id := env.nowId
    text := textOrEmpty text
    media := match file with
      | some f => some ("uploads/" ++ f.filename)
      | none => none
    mediaType := match file with
      | some f => some (getMediaType f.mimetype)
      | none => none
    originalName := match file with
      | some f => some f.originalname
      | none => none
    timestamp := toISOString env.nowTimestamp }

/-- A string or `null` as a JSON value. -/
def nullable (s : Option String) : Json :=
  match s with
  | some x => .str x
  | none => .null

/-- A post as the JSON object with its six fields in the order of the object literal. -/
def Post.toJson (p : Post) : Json :=
  .obj [("id", .num p.id), ("text", .str p.text), ("media", nullable p.media),
    ("mediaType", nullable p.mediaType), ("originalName", nullable p.originalName),
    ("timestamp", .str p.timestamp)]

/-- A collection of posts as a JSON array. -/
def collection (ps : List Post) : Json := .arr (ps.map Post.toJson)

/-- The helper `readPosts`; `file` is the content of `posts.json`, `none` when the file does
not exist. -/
def readPosts (readFault : Option String) (file : Option String) : Except String Json :=
  match file with
  | none => .ok (.arr [])
  | some data =>
    match readFault with
    | some message => .error message
    | none => jsonParse data

/-- The call `fs.writeFileSync(DATA_FILE, data)`: the exception thrown if any, and the content
of the file afterwards. -/
def writeFileSync (outcome : WriteOutcome) (file : Option String) (data : String) :
    Except String Unit × Option String :=
  match outcome with
  | .done => (.ok (), some data)
  | .refused message => (.error message, file)
  | .interrupted message written => (.error message, some (String.mk (data.data.take written)))

/-- The helper `writePosts`. -/
def writePosts (outcome : WriteOutcome) (file : Option String) (posts : Json) :
    Except String Unit × Option String :=
  writeFileSync outcome file (jsonStringify posts)

/-- The call `posts.unshift(newPost)` on the value that `readPosts` returned. -/
def unshift (posts : Json) (x : Json) : Except String Json :=
  match posts with
  | .arr items => .ok (.arr (x :: items))
  | .null => .error "Cannot read properties of null (reading 'unshift')"
  | _ => .error "posts.unshift is not a function"

/-- The response of the `catch` branch. -/
def internalError (message : String) : Response :=
  { status := 500, body := .text ("Internal Server Error: " ++ message) }

/-- The handler of `POST /api/posts` behind `upload.single('media')`: the response and the
content of `posts.json` afterwards. -/
def handlePost (env : Env) (req : Request) (file : Option String) : Response × Option String :=
  let post := newPost env req.text (req.media.map (uploadSingle env))
  match readPosts env.readFault file with
  | .error message => (internalError message, file)
  | .ok posts =>
    match unshift posts post.toJson with
    | .error message => (internalError message, file)
    | .ok posts1 =>
      match writePosts env.write file posts1 with
      | (.error message, file1) => (internalError message, file1)
      | (.ok _, file1) => ({ status := 201, body := .json post.toJson }, file1)

/-- The handler of `GET /api/posts`. -/
def handleGet (readFault : Option String) (file : Option String) : Response :=
  match readPosts readFault file with
  | .ok posts => { status := 200, body := .json posts }
  | .error message => { status := 500, body := .uncaught message }

/-- The post that a request creates when it succeeds. -/
def createdPost (step : Env × Request) : Post :=
  newPost step.1 step.2.text (step.2.media.map (uploadSingle step.1))

/-- Requests handled one after the other: the content of `posts.json` at the end. -/
def ingestAll (file : Option String) : List (Env × Request) → Option String
  | [] => file
  | step :: steps => ingestAll (handlePost step.1 step.2 file).2 steps

/-- Requests handled one after the other: the responses, in order. -/
def responses (file : Option String) : List (Env × Request) → List Response
  | [] => []
  | step :: steps =>
    (handlePost step.1 step.2 file).1 :: responses (handlePost step.1 step.2 file).2 steps

/-! ## `script.js` -/

/-- A `File` chosen in the compose form: its `name` and its `type`. -/
structure ClientFile where
  name : String
  type : String
  deriving DecidableEq

/-- The compose form: `postText.value` and `currentMedia`. -/
structure Compose where
  postText : String
  currentMedia : Option ClientFile
  deriving DecidableEq

/-- The `FormData` of `createPost`: the field `text` and the optional field `media`. -/
structure FormData where
  text : String
  media : Option ClientFile
  deriving DecidableEq

/-- The function `validatePost`: whether it leaves the post button enabled. -/
def validatePost (c : Compose) : Bool :=
  decide ((trim c.postText).length > 0) || c.currentMedia.isSome

/-- The form data that `createPost` submits: `text` always, `media` when `currentMedia` is
set. -/
def createPost (c : Compose) : FormData :=
  { text := c.postText, media := c.currentMedia }

/-- The submission that multer reads from a form data; `busboy` stands for what its parser
reports of a file part. -/
def parseForm (busboy : ClientFile → FilePart) (form : FormData) : Request :=
  { text := some form.text, media := form.media.map busboy }

/-- An element child of the content section. -/
structure Element where
  classes : List String
  animation : String
  innerHTML : String
  deriving DecidableEq

/-- A value inside a template literal: `null` reads `null`. -/
def interpolate (s : Option String) : String :=
  match s with
  | some x => x
  | none => "null"

/-- The call `text.replace(/\n/g, '<br>')`. -/
def replaceNewlines (text : String) : String :=
  String.mk (text.data.flatMap fun c => if c = '\n' then ['<', 'b', 'r', '>'] else [c])

/-- The markup `mediaContent` of `renderPost`. -/
def mediaContent (post : Post) : String :=
  match post.media with
  | none => ""
  | some media =>
    if media = "" then ""
    else if post.mediaType = some "image" then
      "<img src=\"" ++ media ++ "\" class=\"post-image\" alt=\"Post Image\">"
    else if post.mediaType = some "video" then
      "<video src=\"" ++ media ++ "\" class=\"video\" controls></video>"
    else if post.mediaType = some "document" then
      "\n                <div class=\"doc-preview\" style=\"margin-top: 15px;\">"
        ++ "\n                    <i class=\"fa-solid fa-file-alt doc-icon\"></i>"
        ++ "\n                    <div class=\"doc-info\">"
        ++ "\n                        <span class=\"doc-name\">" ++ interpolate post.originalName
        ++ "</span>"
        ++ "\n                        <a href=\"" ++ media ++ "\" download=\""
        ++ interpolate post.originalName
        ++ "\" class=\"doc-size\" style=\"color: var(--accent);\">Download</a>"
        ++ "\n                    </div>"
        ++ "\n                </div>"
        ++ "\n            "
    else ""

/-- The card element that `renderPost` builds; `toLocaleString` stands for
`new Date(timestamp).toLocaleString()`. -/
def postCard (toLocaleString : String → String) (post : Post) : Element :=
  { classes := ["card"]
    animation := "fadeIn 0.5s ease"
    innerHTML :=
      "\n        <div class=\"post-header\">"
        ++ "\n            <img src=\"Photo.png\" class=\"mini-dp\" alt=\"dp\">"
        ++ "\n            <div class=\"post-meta\">"
        ++ "\n                <h3>Aman Kumar</h3>"
        ++ "\n                <span>" ++ toLocaleString post.timestamp ++ "</span>"
        ++ "\n            </div>"
        ++ "\n        </div>"
        ++ "\n        <div class=\"post-text\">"
        ++ "\n            " ++ replaceNewlines post.text
        ++ "\n            " ++ mediaContent post
        ++ "\n        </div>"
        ++ "\n    " }

/-- The call `contentSection.insertBefore(x, createPostCard.nextSibling)`, where
`createPostCard` is the first element of class `create-post-card`; `none` when there is no such
element and the lookup of `nextSibling` throws. -/
def insertAfterCreateCard (x : Element) : List Element → Option (List Element)
  | [] => none
  | e :: es =>
    if "create-post-card" ∈ e.classes then some (e :: x :: es)
    else
      match insertAfterCreateCard x es with
      | some es1 => some (e :: es1)
      | none => none

/-- The function `renderPost` on the children of the content section. -/
def renderPost (toLocaleString : String → String) (children : List Element) (post : Post) :
    Option (List Element) :=
  insertAfterCreateCard (postCard toLocaleString post) children

/-- The loop `forEach(renderPost)` inside the `try` of `loadPosts`: it stops at the first
exception, and the children stay as they were then. -/
def forEachRender (toLocaleString : String → String) : List Element → List Post → List Element
  | children, [] => children
  | children, post :: posts =>
    match renderPost toLocaleString children post with
    | some children1 => forEachRender toLocaleString children1 posts
    | none => children

/-- The function `loadPosts` on the list of posts that the server returned. -/
def loadPosts (toLocaleString : String → String) (children : List Element) (posts : List Post) :
    List Element :=
  forEachRender toLocaleString children posts.reverse

/-! ## Decimal rendering -/

theorem digitChar_isDigit (d : Nat) (h : d < 10) : (digitChar d).isDigit = true := by
  interval_cases d <;> decide

theorem digitChar_toNat (d : Nat) (h : d < 10) : (digitChar d).toNat - 48 = d := by
  interval_cases d <;> decide

theorem digitChar_eq_zero (d : Nat) (h : d < 10) (h0 : digitChar d = '0') : d = 0 := by
  interval_cases d <;> first | rfl | (exfalso; revert h0; decide)

theorem digitsValue_append (xs ys : List Char) :
    digitsValue (xs ++ ys) = ys.foldl (fun acc c => 10 * acc + (c.toNat - 48)) (digitsValue xs) := by
  simp [digitsValue, List.foldl_append]

/-- The digits produced by `decimalAux`: non-empty, all decimal digits, of value `n`, without a
leading zero unless they are the single digit zero. -/
theorem decimalAux_spec (fuel : Nat) : ∀ (n : Nat) (acc : List Char), n < fuel →
    ∃ ds, decimalAux fuel n acc = ds ++ acc ∧ ds ≠ [] ∧ (∀ c ∈ ds, c.isDigit = true)
      ∧ digitsValue ds = n ∧ (∀ d rest, ds = d :: rest → d = '0' → rest = []) := by
  induction fuel with
  | zero => intro n acc h; omega
  | succ fuel ih =>
    intro n acc h
    by_cases h10 : n < 10
    · refine ⟨[digitChar n], ?_, by simp, ?_, ?_, ?_⟩
      · simp [decimalAux, h10]
      · intro c hc
        simp only [List.mem_singleton] at hc
        rw [hc]; exact digitChar_isDigit n h10
      · simp [digitsValue, digitChar_toNat n h10]
      · intro d rest hds _
        simp only [List.cons.injEq] at hds
        exact hds.2.symm
    · obtain ⟨ds, hds, hne, hdig, hval, hlead⟩ :=
        ih (n / 10) (digitChar (n % 10) :: acc) (by omega)
      have hmod : n % 10 < 10 := Nat.mod_lt _ (by decide)
      refine ⟨ds ++ [digitChar (n % 10)], ?_, by simp, ?_, ?_, ?_⟩
      · simp [decimalAux, h10, hds]
      · intro c hc
        rcases List.mem_append.1 hc with hc | hc
        · exact hdig c hc
        · simp only [List.mem_singleton] at hc
          rw [hc]; exact digitChar_isDigit _ hmod
      · rw [digitsValue_append]
        simp only [List.foldl_cons, List.foldl_nil, hval, digitChar_toNat _ hmod]
        omega
      · intro d rest hcons hd
        cases ds with
        | nil => exact absurd rfl hne
        | cons d1 rest1 =>
          simp only [List.cons_append, List.cons.injEq] at hcons
          have h1 : rest1 = [] := hlead d1 rest1 rfl (hcons.1.trans hd)
          have hd1 : d1 = '0' := hcons.1.trans hd
          subst h1 hd1
          have : digitsValue ['0'] = n / 10 := hval
          simp [digitsValue] at this
          omega

theorem decimal_spec (n : Nat) :
    decimal n ≠ [] ∧ (∀ c ∈ decimal n, c.isDigit = true) ∧ digitsValue (decimal n) = n
      ∧ (∀ d rest, decimal n = d :: rest → d = '0' → rest = []) := by
  obtain ⟨ds, hds, hne, hdig, hval, hlead⟩ := decimalAux_spec (n + 1) n [] (by omega)
  have : decimal n = ds := by simp [decimal, hds]
  rw [this]
  exact ⟨hne, hdig, hval, hlead⟩

theorem decimal_injective {m n : Nat} (h : decimal m = decimal n) : m = n := by
  have h1 := (decimal_spec m).2.2.1
  have h2 := (decimal_spec n).2.2.1
  rw [h] at h1
  exact h1.symm.trans h2

theorem decimal_no_dash (n : Nat) : '-' ∉ decimal n := by
  intro h
  have := (decimal_spec n).2.1 _ h
  revert this; decide

/-! ## Storage names and media classification -/

theorem split_at_first {α : Type} (sep : α) : ∀ (xs ys a b : List α), sep ∉ xs → sep ∉ ys →
    xs ++ sep :: a = ys ++ sep :: b → xs = ys ∧ a = b := by
  intro xs
  induction xs with
  | nil =>
    intro ys a b _ hy h
    cases ys with
    | nil => simpa using h
    | cons y ys =>
      simp only [List.nil_append, List.cons_append, List.cons.injEq] at h
      exact absurd (by simp [h.1]) hy
  | cons x xs ih =>
    intro ys a b hx hy h
    cases ys with
    | nil =>
      simp only [List.nil_append, List.cons_append, List.cons.injEq] at h
      exact absurd (by simp [h.1]) hx
    | cons y ys =>
      simp only [List.cons_append, List.cons.injEq] at h
      have hx1 : sep ∉ xs := fun hm => hx (List.mem_cons_of_mem _ hm)
      have hy1 : sep ∉ ys := fun hm => hy (List.mem_cons_of_mem _ hm)
      obtain ⟨h1, h2⟩ := ih ys a b hx1 hy1 h.2
      exact ⟨by rw [h.1, h1], h2⟩

theorem storageFilename_data (t : Nat) (n : String) :
    (storageFilename t n).data = decimal t ++ '-' :: n.data := by
  simp [storageFilename, numberToString, String.data_append]

theorem startsWith_iff (s p : String) : startsWith s p = true ↔ ∃ rest : String, s = p ++ rest := by
  unfold startsWith
  rw [List.isPrefixOf_iff_prefix]
  constructor
  · rintro ⟨t, ht⟩
    exact ⟨String.mk t, String.ext (by simp [String.data_append, ht])⟩
  · rintro ⟨rest, h⟩
    exact ⟨rest.data, by rw [h, String.data_append]⟩

/-- C9: the stored name of an upload is the decimal timestamp, a dash, and the original name
`file.originalname` unchanged; the media path of the post is `uploads/` followed by the stored
name `file.filename`; and two stored names are equal only for equal timestamps and equal
original names. -/
theorem storage_name_collision_free (t1 t2 : Nat) (n1 n2 : String) :
    (storageFilename t1 n1).data = decimal t1 ++ '-' :: n1.data
      ∧ (∀ (env : Env) (part : FilePart),
          (uploadSingle env part).filename
            = storageFilename env.nowFilename (uploadSingle env part).originalname)
      ∧ (∀ (env : Env) (text : Option String) (file : MulterFile),
          (newPost env text (some file)).media = some ("uploads/" ++ file.filename)
            ∧ (newPost env text (some file)).originalName = some file.originalname)
      ∧ (storageFilename t1 n1 = storageFilename t2 n2 → t1 = t2 ∧ n1 = n2) := by
  refine ⟨storageFilename_data t1 n1, fun env part => rfl, fun env text file => ⟨rfl, rfl⟩,
    fun h => ?_⟩
  have hd : (storageFilename t1 n1).data = (storageFilename t2 n2).data := by rw [h]
  rw [storageFilename_data, storageFilename_data] at hd
  obtain ⟨h1, h2⟩ := split_at_first '-' _ _ _ _ (decimal_no_dash t1) (decimal_no_dash t2) hd
  exact ⟨decimal_injective h1, String.ext h2⟩

theorem storage_name_collision_free_witness :
    storageFilename 1700000000000 "3-cat.png" = storageFilename 1700000000000 "3-cat.png"
      ∧ (1700000000000 = 1700000000000 ∧ "3-cat.png" = "3-cat.png") :=
  ⟨rfl,
    (storage_name_collision_free 1700000000000 1700000000000 "3-cat.png" "3-cat.png").2.2.2 rfl⟩

/-- C1: `getMediaType` returns `image` for a MIME type that starts with `image/`, otherwise
`video` for one that starts with `video/`, otherwise `document`; the result is one of these
three values; and the `mediaType` of a post created with a file is `getMediaType` of
`file.mimetype`, the MIME type of the file object that multer hands to the handler. -/
theorem getMediaType_classifies (m : String) :
    ((∃ rest : String, m = "image/" ++ rest) → getMediaType m = "image")
      ∧ ((¬ ∃ rest : String, m = "image/" ++ rest) → (∃ rest : String, m = "video/" ++ rest) →
          getMediaType m = "video")
      ∧ ((¬ ∃ rest : String, m = "image/" ++ rest) → (¬ ∃ rest : String, m = "video/" ++ rest) →
          getMediaType m = "document")
      ∧ (getMediaType m = "image" ∨ getMediaType m = "video" ∨ getMediaType m = "document")
      ∧ (∀ (env : Env) (text : Option String) (file : MulterFile), file.mimetype = m →
          (newPost env text (some file)).mediaType = some (getMediaType m)) := by
  refine ⟨?_, ?_, ?_, ?_, ?_⟩
  · intro h
    simp [getMediaType, (startsWith_iff m "image/").2 h]
  · intro h1 h2
    have h1' : startsWith m "image/" = false := by
      rw [← Bool.not_eq_true]; exact fun h => h1 ((startsWith_iff _ _).1 h)
    simp [getMediaType, h1', (startsWith_iff m "video/").2 h2]
  · intro h1 h2
    have h1' : startsWith m "image/" = false := by
      rw [← Bool.not_eq_true]; exact fun h => h1 ((startsWith_iff _ _).1 h)
    have h2' : startsWith m "video/" = false := by
      rw [← Bool.not_eq_true]; exact fun h => h2 ((startsWith_iff _ _).1 h)
    simp [getMediaType, h1', h2']
  · unfold getMediaType
    split
    · exact Or.inl rfl
    · split
      · exact Or.inr (Or.inl rfl)
      · exact Or.inr (Or.inr rfl)
  · intro env text file hm
    simp [newPost, hm]

theorem getMediaType_classifies_witness :
    getMediaType "video/mp4" = "video"
      ∧ (newPost ⟨1, 2, 3, none, .done⟩ (some "") (some ⟨"1-cat.mp4", "cat.mp4", "video/mp4"⟩)).mediaType
        = some (getMediaType "video/mp4") :=
  ⟨(getMediaType_classifies "video/mp4").2.1 (by
      rintro ⟨rest, h⟩
      have := congrArg (fun s => s.data.head?) h
      revert this
      simp [String.data_append])
    ⟨"mp4", by decide⟩,
   (getMediaType_classifies "video/mp4").2.2.2.2 ⟨1, 2, 3, none, .done⟩ (some "")
      ⟨"1-cat.mp4", "cat.mp4", "video/mp4"⟩ rfl⟩

/-! ## Reading back what `JSON.stringify` wrote -/

theorem skipWs_of_not_ws (c : Char) (cs : List Char) (h : isWs c = false) :
    skipWs (c :: cs) = c :: cs := by
  simp [skipWs, h]

theorem skipWs_spaces (n : Nat) (cs : List Char) : skipWs (spaces n ++ cs) = skipWs cs := by
  induction n with
  | zero => simp [spaces]
  | succ n ih =>
    have : spaces (n + 1) = ' ' :: spaces n := by simp [spaces, List.replicate_succ]
    rw [this, List.cons_append]
    simp only [skipWs, isWs]
    simpa using ih

theorem skipWs_newline_spaces (n : Nat) (cs : List Char) :
    skipWs ('\n' :: (spaces n ++ cs)) = skipWs cs := by
  have : skipWs ('\n' :: (spaces n ++ cs)) = skipWs (spaces n ++ cs) := by
    simp [skipWs, isWs]
  rw [this, skipWs_spaces]

theorem skipWs_idem (cs : List Char) : skipWs (skipWs cs) = skipWs cs := by
  induction cs with
  | nil => rfl
  | cons c cs ih =>
    by_cases h : isWs c = true
    · simp [skipWs, h, ih]
    · simp only [Bool.not_eq_true] at h
      rw [skipWs_of_not_ws c cs h, skipWs_of_not_ws c cs h]

theorem parseValue_skipWs (fuel : Nat) (cs : List Char) :
    parseValue fuel (skipWs cs) = parseValue fuel cs := by
  cases fuel with
  | zero => simp [parseValue]
  | succ f => simp only [parseValue, skipWs_idem]

theorem parseItems_skipWs (fuel : Nat) (cs : List Char) :
    parseItems fuel (skipWs cs) = parseItems fuel cs := by
  cases fuel with
  | zero => simp [parseItems]
  | succ f => simp only [parseItems, parseValue_skipWs]

theorem parseMembers_skipWs (fuel : Nat) (cs : List Char) :
    parseMembers fuel (skipWs cs) = parseMembers fuel cs := by
  cases fuel with
  | zero => simp [parseMembers]
  | succ f => simp only [parseMembers, skipWs_idem]

theorem hex4_unicodeEscape (n : Nat) (h : n < 32) :
    hex4 (hexDigit (n / 4096 % 16)) (hexDigit (n / 256 % 16)) (hexDigit (n / 16 % 16))
      (hexDigit (n % 16)) = some n := by
  interval_cases n <;> decide

theorem stringStep_escapeChar (c : Char) (cs : List Char) :
    stringStep (escapeChar c ++ cs) = .char c cs := by
  unfold escapeChar
  by_cases h1 : c = '"'
  · subst h1; simp [stringStep, unescape]
  by_cases h2 : c = '\\'
  · subst h2; simp [stringStep, unescape]
  have hc : Char.ofNat c.toNat = c := Char.ofNat_toNat c
  by_cases h3 : c.toNat = 8
  · rw [h3] at hc; subst hc; simp [stringStep, unescape]
  by_cases h4 : c.toNat = 12
  · rw [h4] at hc; subst hc; simp [stringStep, unescape]
  by_cases h5 : c.toNat = 10
  · rw [h5] at hc; subst hc; simp [stringStep, unescape]
  by_cases h6 : c.toNat = 13
  · rw [h6] at hc; subst hc; simp [stringStep, unescape]
  by_cases h7 : c.toNat = 9
  · rw [h7] at hc; subst hc; simp [stringStep, unescape]
  by_cases h8 : c.toNat < 32
  · simp only [h1, h2, h3, h4, h5, h6, h7, h8, if_true, if_false, unicodeEscape, List.cons_append,
      List.nil_append]
    have hx := hex4_unicodeEscape c.toNat h8
    have hlt : c.toNat < 0xD800 := by omega
    simp [stringStep, decodeUnicodeEscape, hx, hlt, hc]
  · simp only [h1, h2, h3, h4, h5, h6, h7, h8, if_false, List.cons_append, List.nil_append]
    simp [stringStep, h1, h2, h8]

theorem escapeChar_length_pos (c : Char) : 1 ≤ (escapeChar c).length := by
  unfold escapeChar unicodeEscape
  repeat' split
  all_goals simp

theorem escapeChars_length (s : List Char) : s.length ≤ (escapeChars s).length := by
  induction s with
  | nil => simp [escapeChars]
  | cons c cs ih =>
    have := escapeChar_length_pos c
    simp only [escapeChars, List.length_append, List.length_cons]
    omega

theorem parseStringFuel_escapeChars (s rest : List Char) : ∀ fuel, s.length + 1 ≤ fuel →
    parseStringFuel fuel (escapeChars s ++ '"' :: rest) = .ok (s, rest) := by
  induction s with
  | nil =>
    intro fuel h
    obtain ⟨f, rfl⟩ : ∃ f, fuel = f + 1 := ⟨fuel - 1, by omega⟩
    simp [escapeChars, parseStringFuel, stringStep]
  | cons c cs ih =>
    intro fuel h
    obtain ⟨f, rfl⟩ : ∃ f, fuel = f + 1 := ⟨fuel - 1, by omega⟩
    simp only [List.length_cons] at h
    simp only [escapeChars, List.append_assoc, parseStringFuel, stringStep_escapeChar]
    rw [ih f (by omega)]
    rfl

theorem parseStringBody_quote (s : String) (rest : List Char) :
    parseStringBody (escapeChars s.data ++ '"' :: rest) = .ok (s.data, rest) := by
  unfold parseStringBody
  apply parseStringFuel_escapeChars
  have := escapeChars_length s.data
  simp only [List.length_append, List.length_cons]
  omega

theorem takeWhile_dropWhile_append (p : Char → Bool) : ∀ (ds rest : List Char),
    (∀ c ∈ ds, p c = true) → (∀ c r, rest = c :: r → p c = false) →
    (ds ++ rest).takeWhile p = ds ∧ (ds ++ rest).dropWhile p = rest := by
  intro ds
  induction ds with
  | nil =>
    intro rest _ hr
    cases rest with
    | nil => simp
    | cons c r => simp [List.takeWhile, List.dropWhile, hr c r rfl]
  | cons d ds ih =>
    intro rest hd hr
    have hd0 : p d = true := hd d (List.mem_cons_self _ _)
    obtain ⟨h1, h2⟩ := ih rest (fun c hc => hd c (List.mem_cons_of_mem _ hc)) hr
    simp [List.takeWhile, List.dropWhile, hd0, h1, h2]

theorem parseNumber_decimal (n : Nat) (rest : List Char) (hrest : EndsNumber rest) :
    parseNumber (decimal n ++ rest) = .ok (.num n, rest) := by
  obtain ⟨hne, hdig, hval, hlead⟩ := decimal_spec n
  obtain ⟨h1, h2⟩ := takeWhile_dropWhile_append Char.isDigit (decimal n) rest hdig
    (fun c r h => (hrest c r h).1)
  unfold parseNumber
  rw [h1, h2]
  cases hds : decimal n with
  | nil => exact absurd hds hne
  | cons d ds =>
    have hz : ¬ (d = '0' ∧ ds ≠ []) := fun h => h.2 (hlead d ds hds h.1)
    have hv : digitsValue (d :: ds) = n := by rw [← hds]; exact hval
    simp only [hz, if_false, hv]
    cases rest with
    | nil => rfl
    | cons c r =>
      obtain ⟨_, ha, hb, hc⟩ := hrest c r rfl
      simp [ha, hb, hc]

theorem digit_facts (d : Char) (h : d.isDigit = true) :
    isWs d = false ∧ d ≠ '[' ∧ d ≠ '{' ∧ d ≠ '"' ∧ d ≠ 'n' ∧ d ≠ 't' ∧ d ≠ 'f' ∧ d ≠ ']' := by
  refine ⟨?_, ?_, ?_, ?_, ?_, ?_, ?_, ?_⟩
  · simp only [isWs, Bool.or_eq_false_iff, decide_eq_false_iff_not]
    refine ⟨⟨⟨?_, ?_⟩, ?_⟩, ?_⟩ <;> (rintro rfl; revert h; decide)
  all_goals (rintro rfl; revert h; decide)

theorem parseValue_digit (f : Nat) (d : Char) (cs : List Char) (h : d.isDigit = true) :
    parseValue (f + 1) (d :: cs) = parseNumber (d :: cs) := by
  obtain ⟨h0, h1, h2, h3, h4, h5, h6, _⟩ := digit_facts d h
  simp [parseValue, skipWs_of_not_ws d cs h0, h1, h2, h3, h4, h5, h6]

theorem render_head (v : Json) (ind : Nat) :
    ∃ d tl, v.render ind = d :: tl ∧ isWs d = false ∧ d ≠ ']' := by
  cases v with
  | null => exact ⟨_, _, by simp [Json.render]; exact ⟨rfl, rfl⟩, by decide, by decide⟩
  | bool b => cases b <;> exact ⟨_, _, by simp [Json.render]; exact ⟨rfl, rfl⟩, by decide, by decide⟩
  | num n =>
    obtain ⟨hne, hdig, _, _⟩ := decimal_spec n
    cases hds : decimal n with
    | nil => exact absurd hds hne
    | cons d tl =>
      have hd : d.isDigit = true := hdig d (by rw [hds]; exact List.mem_cons_self _ _)
      obtain ⟨h0, _, _, _, _, _, _, h7⟩ := digit_facts d hd
      exact ⟨d, tl, by simp [Json.render, hds], h0, h7⟩
  | str s => exact ⟨_, _, by simp [Json.render, quote]; exact ⟨rfl, rfl⟩, by decide, by decide⟩
  | arr items =>
    cases items <;> exact ⟨_, _, by simp [Json.render]; exact ⟨rfl, rfl⟩, by decide, by decide⟩
  | obj members =>
    cases members with
    | nil => exact ⟨_, _, by simp [Json.render]; exact ⟨rfl, rfl⟩, by decide, by decide⟩
    | cons m ms => cases m; exact ⟨_, _, by simp [Json.render]; exact ⟨rfl, rfl⟩, by decide, by decide⟩

theorem endsNumber_comma (cs : List Char) : EndsNumber (',' :: cs) := by
  intro c r h
  simp only [List.cons.injEq] at h
  rw [← h.1]; decide

theorem endsNumber_newline (cs : List Char) : EndsNumber ('\n' :: cs) := by
  intro c r h
  simp only [List.cons.injEq] at h
  rw [← h.1]; decide

theorem endsNumber_nil : EndsNumber [] := by
  intro c r h; cases h

theorem endsNumber_renderItems (ind : Nat) (xs : List Json) (cs : List Char) :
    EndsNumber (Json.renderItems ind xs ++ '\n' :: cs) := by
  cases xs with
  | nil => simpa [Json.renderItems] using endsNumber_newline cs
  | cons x xs => simpa [Json.renderItems] using endsNumber_comma _

theorem endsNumber_renderMembers (ind : Nat) (ms : List (String × Json)) (cs : List Char) :
    EndsNumber (Json.renderMembers ind ms ++ '\n' :: cs) := by
  cases ms with
  | nil => simpa [Json.renderMembers] using endsNumber_newline cs
  | cons m ms => cases m; simpa [Json.renderMembers] using endsNumber_comma _

theorem parseValue_open_bracket (f : Nat) (x : Json) (ind : Nat) (cs : List Char) :
    parseValue (f + 1) ('[' :: '\n' :: (spaces ind ++ (x.render ind ++ cs)))
      = match parseItems f (x.render ind ++ cs) with
        | .ok (xs, r) => .ok (.arr xs, r)
        | .error e => .error e := by
  obtain ⟨d, tl, hd, hws, hne⟩ := render_head x ind
  have h1 : skipWs ('\n' :: (spaces ind ++ (x.render ind ++ cs))) = d :: (tl ++ cs) := by
    rw [skipWs_newline_spaces, hd, List.cons_append, skipWs_of_not_ws d _ hws]
  rw [parseValue, skipWs_of_not_ws '[' _ (by decide)]
  simp only [↓reduceIte, h1, hne]
  rw [hd]
  rfl

theorem parseValue_open_brace (f : Nat) (ind : Nat) (cs : List Char) :
    parseValue (f + 1) ('{' :: '\n' :: (spaces ind ++ '"' :: cs))
      = match parseMembers f ('"' :: cs) with
        | .ok (ms, r) => .ok (.obj ms, r)
        | .error e => .error e := by
  have h1 : skipWs ('\n' :: (spaces ind ++ '"' :: cs)) = '"' :: cs := by
    rw [skipWs_newline_spaces, skipWs_of_not_ws _ _ (by decide)]
  rw [parseValue, skipWs_of_not_ws '{' _ (by decide)]
  simp only [↓reduceIte, h1]
  rfl

theorem parseValue_space (f : Nat) (cs : List Char) : parseValue f (' ' :: cs) = parseValue f cs := by
  rw [← parseValue_skipWs f (' ' :: cs)]
  have : skipWs (' ' :: cs) = skipWs cs := by simp [skipWs, isWs]
  rw [this, parseValue_skipWs]

theorem parseMembers_member (f : Nat) (k : String) (cs : List Char) :
    parseMembers (f + 1) ('"' :: (escapeChars k.data ++ '"' :: ':' :: ' ' :: cs))
      = match parseValue f cs with
        | .error e => .error e
        | .ok (v, r3) =>
          match skipWs r3 with
          | [] => .error "Unexpected end of JSON input"
          | c1 :: r4 =>
            if c1 = ',' then
              match parseMembers f r4 with
              | .ok (ms, r5) => .ok ((k, v) :: ms, r5)
              | .error e => .error e
            else if c1 = '}' then .ok ([(k, v)], r4)
            else .error "Unexpected token in JSON" := by
  rw [parseMembers, skipWs_of_not_ws '"' _ (by decide)]
  simp only [↓reduceIte, parseStringBody_quote, skipWs_of_not_ws ':' _ (by decide),
    parseValue_space]
  all_goals rfl

theorem parseItems_newline_spaces (f n : Nat) (cs : List Char) :
    parseItems f ('\n' :: (spaces n ++ cs)) = parseItems f cs := by
  rw [← parseItems_skipWs, skipWs_newline_spaces, parseItems_skipWs]

theorem parseMembers_newline_spaces (f n : Nat) (cs : List Char) :
    parseMembers f ('\n' :: (spaces n ++ cs)) = parseMembers f cs := by
  rw [← parseMembers_skipWs, skipWs_newline_spaces, parseMembers_skipWs]

mutual
theorem parseValue_render : ∀ (v : Json) (ind fuel : Nat) (rest : List Char),
    v.size ≤ fuel → EndsNumber rest → parseValue fuel (v.render ind ++ rest) = .ok (v, rest)
  | .null, ind, fuel, rest, hf, _ => by
    obtain ⟨f, rfl⟩ : ∃ f, fuel = f + 1 := ⟨fuel - 1, by simp [Json.size] at hf; omega⟩
    simp [Json.render, parseValue, skipWs, isWs, parseKeyword]
  | .bool true, ind, fuel, rest, hf, _ => by
    obtain ⟨f, rfl⟩ : ∃ f, fuel = f + 1 := ⟨fuel - 1, by simp [Json.size] at hf; omega⟩
    simp [Json.render, parseValue, skipWs, isWs, parseKeyword]
  | .bool false, ind, fuel, rest, hf, _ => by
    obtain ⟨f, rfl⟩ : ∃ f, fuel = f + 1 := ⟨fuel - 1, by simp [Json.size] at hf; omega⟩
    simp [Json.render, parseValue, skipWs, isWs, parseKeyword]
  | .num n, ind, fuel, rest, hf, hrest => by
    obtain ⟨f, rfl⟩ : ∃ f, fuel = f + 1 := ⟨fuel - 1, by simp [Json.size] at hf; omega⟩
    obtain ⟨hne, hdig, _, _⟩ := decimal_spec n
    have key := parseNumber_decimal n rest hrest
    simp only [Json.render]
    cases hds : decimal n with
    | nil => exact absurd hds hne
    | cons d tl =>
      have hd : d.isDigit = true := hdig d (by rw [hds]; exact List.mem_cons_self _ _)
      rw [hds] at key
      rw [List.cons_append, parseValue_digit f d _ hd]
      exact key
  | .str s, ind, fuel, rest, hf, _ => by
    obtain ⟨f, rfl⟩ : ∃ f, fuel = f + 1 := ⟨fuel - 1, by simp [Json.size] at hf; omega⟩
    simp only [Json.render, quote, List.cons_append, List.append_assoc, List.nil_append,
      List.singleton_append]
    rw [parseValue, skipWs_of_not_ws '"' _ (by decide)]
    simp only [parseStringBody_quote]
    rfl
  | .arr [], ind, fuel, rest, hf, _ => by
    obtain ⟨f, rfl⟩ : ∃ f, fuel = f + 1 := ⟨fuel - 1, by simp [Json.size] at hf; omega⟩
    simp [Json.render, parseValue, skipWs, isWs]
  | .arr (x :: xs), ind, fuel, rest, hf, _ => by
    obtain ⟨f, rfl⟩ : ∃ f, fuel = f + 1 := ⟨fuel - 1, by simp [Json.size] at hf; omega⟩
    have hx := parseItems_render x xs (ind + 2) ind f rest
      (by simp only [Json.size] at hf; omega)
    simp only [Json.render, List.cons_append, List.append_assoc, List.nil_append,
      List.singleton_append]
    rw [parseValue_open_bracket, hx]
  | .obj [], ind, fuel, rest, hf, _ => by
    obtain ⟨f, rfl⟩ : ∃ f, fuel = f + 1 := ⟨fuel - 1, by simp [Json.size] at hf; omega⟩
    simp [Json.render, parseValue, skipWs, isWs]
  | .obj ((k, v) :: ms), ind, fuel, rest, hf, _ => by
    obtain ⟨f, rfl⟩ : ∃ f, fuel = f + 1 := ⟨fuel - 1, by simp [Json.size] at hf; omega⟩
    have hx := parseMembers_render k v ms (ind + 2) ind f rest
      (by simp only [Json.size, Json.sizeMembers] at hf ⊢; omega)
    simp only [Json.render, quote, List.cons_append, List.append_assoc, List.nil_append,
      List.singleton_append] at hx ⊢
    rw [parseValue_open_brace, hx]
termination_by v => v.size
decreasing_by
  all_goals simp only [Json.size, Json.sizeItems, Json.sizeMembers]
  all_goals omega
theorem parseItems_render : ∀ (x : Json) (xs : List Json) (ind k fuel : Nat) (rest : List Char),
    Json.sizeItems (x :: xs) ≤ fuel →
    parseItems fuel (x.render ind ++ (Json.renderItems ind xs ++ '\n' :: (spaces k ++ ']' :: rest)))
      = .ok (x :: xs, rest)
  | x, [], ind, k, fuel, rest, hf => by
    obtain ⟨f, rfl⟩ : ∃ f, fuel = f + 1 := ⟨fuel - 1, by simp [Json.sizeItems] at hf; omega⟩
    have hx := parseValue_render x ind f
      (Json.renderItems ind [] ++ '\n' :: (spaces k ++ ']' :: rest))
      (by simp only [Json.sizeItems] at hf; omega) (endsNumber_renderItems _ _ _)
    rw [parseItems, hx]
    simp only [Json.renderItems, List.nil_append, skipWs_newline_spaces,
      skipWs_of_not_ws ']' rest (by decide)]
    simp
  | x, y :: ys, ind, k, fuel, rest, hf => by
    obtain ⟨f, rfl⟩ : ∃ f, fuel = f + 1 := ⟨fuel - 1, by simp [Json.sizeItems] at hf; omega⟩
    have hx := parseValue_render x ind f
      (Json.renderItems ind (y :: ys) ++ '\n' :: (spaces k ++ ']' :: rest))
      (by simp only [Json.sizeItems] at hf; omega) (endsNumber_renderItems _ _ _)
    have hy := parseItems_render y ys ind k f rest (by simp only [Json.sizeItems] at hf ⊢; omega)
    rw [parseItems, hx]
    simp only [Json.renderItems, List.cons_append, List.append_assoc,
      skipWs_of_not_ws ',' _ (by decide), ↓reduceIte, parseItems_newline_spaces, hy]
termination_by x xs => Json.sizeItems (x :: xs)
decreasing_by
  all_goals simp only [Json.size, Json.sizeItems, Json.sizeMembers]
  all_goals omega
theorem parseMembers_render : ∀ (k : String) (v : Json) (ms : List (String × Json))
    (ind j fuel : Nat) (rest : List Char),
    Json.sizeMembers ((k, v) :: ms) ≤ fuel →
    parseMembers fuel (quote k ++ ':' :: ' ' :: (v.render ind
        ++ (Json.renderMembers ind ms ++ '\n' :: (spaces j ++ '}' :: rest))))
      = .ok ((k, v) :: ms, rest)
  | k, v, [], ind, j, fuel, rest, hf => by
    obtain ⟨f, rfl⟩ : ∃ f, fuel = f + 1 := ⟨fuel - 1, by simp [Json.sizeMembers] at hf; omega⟩
    have hx := parseValue_render v ind f
      (Json.renderMembers ind [] ++ '\n' :: (spaces j ++ '}' :: rest))
      (by simp only [Json.sizeMembers] at hf; omega) (endsNumber_renderMembers _ _ _)
    simp only [quote, List.cons_append, List.append_assoc, List.nil_append,
      List.singleton_append]
    rw [parseMembers_member, hx]
    simp only [Json.renderMembers, List.nil_append, skipWs_newline_spaces,
      skipWs_of_not_ws '}' rest (by decide)]
    simp
  | k, v, (k1, v1) :: ms, ind, j, fuel, rest, hf => by
    obtain ⟨f, rfl⟩ : ∃ f, fuel = f + 1 := ⟨fuel - 1, by simp [Json.sizeMembers] at hf; omega⟩
    have hx := parseValue_render v ind f
      (Json.renderMembers ind ((k1, v1) :: ms) ++ '\n' :: (spaces j ++ '}' :: rest))
      (by simp only [Json.sizeMembers] at hf; omega) (endsNumber_renderMembers _ _ _)
    have hy := parseMembers_render k1 v1 ms ind j f rest
      (by simp only [Json.sizeMembers] at hf ⊢; omega)
    simp only [quote, List.cons_append, List.append_assoc, List.nil_append,
      List.singleton_append] at hy ⊢
    rw [parseMembers_member, hx]
    simp only [Json.renderMembers, quote, List.cons_append, List.append_assoc,
      List.nil_append, List.singleton_append, skipWs_of_not_ws ',' _ (by decide), ↓reduceIte,
      parseMembers_newline_spaces, hy]
termination_by k v ms => Json.sizeMembers ((k, v) :: ms)
decreasing_by
  all_goals simp only [Json.size, Json.sizeItems, Json.sizeMembers]
  all_goals omega
end

mutual
theorem size_le_length : ∀ (v : Json) (ind : Nat), v.size ≤ (v.render ind).length
  | .null, _ => by simp [Json.size, Json.render]
  | .bool true, _ => by simp [Json.size, Json.render]
  | .bool false, _ => by simp [Json.size, Json.render]
  | .num n, _ => by
    have := (decimal_spec n).1
    have : 0 < (decimal n).length := List.length_pos.2 this
    simp only [Json.size, Json.render]
    omega
  | .str s, _ => by simp [Json.size, Json.render, quote]
  | .arr [], _ => by simp [Json.size, Json.sizeItems, Json.render]
  | .arr (x :: xs), ind => by
    have h1 := size_le_length x (ind + 2)
    have h2 := sizeItems_le_length xs (ind + 2)
    simp only [Json.size, Json.sizeItems, Json.render, List.length_cons, List.length_append]
    omega
  | .obj [], _ => by simp [Json.size, Json.sizeMembers, Json.render]
  | .obj ((k, v) :: ms), ind => by
    have h1 := size_le_length v (ind + 2)
    have h2 := sizeMembers_le_length ms (ind + 2)
    simp only [Json.size, Json.sizeMembers, Json.render, List.length_cons, List.length_append]
    omega
termination_by v => v.size
decreasing_by
  all_goals simp only [Json.size, Json.sizeItems, Json.sizeMembers]
  all_goals omega
theorem sizeItems_le_length : ∀ (xs : List Json) (ind : Nat),
    Json.sizeItems xs ≤ (Json.renderItems ind xs).length
  | [], _ => by simp [Json.sizeItems]
  | x :: xs, ind => by
    have h1 := size_le_length x ind
    have h2 := sizeItems_le_length xs ind
    simp only [Json.sizeItems, Json.renderItems, List.length_cons, List.length_append]
    omega
termination_by xs => Json.sizeItems xs
decreasing_by
  all_goals simp only [Json.size, Json.sizeItems, Json.sizeMembers]
  all_goals omega
theorem sizeMembers_le_length : ∀ (ms : List (String × Json)) (ind : Nat),
    Json.sizeMembers ms ≤ (Json.renderMembers ind ms).length
  | [], _ => by simp [Json.sizeMembers]
  | (k, v) :: ms, ind => by
    have h1 := size_le_length v ind
    have h2 := sizeMembers_le_length ms ind
    simp only [Json.sizeMembers, Json.renderMembers, List.length_cons, List.length_append]
    omega
termination_by ms => Json.sizeMembers ms
decreasing_by
  all_goals simp only [Json.size, Json.sizeItems, Json.sizeMembers]
  all_goals omega
end

/-- Reading back with `JSON.parse` what `JSON.stringify(value, null, 2)` wrote gives the value. -/
theorem jsonParse_jsonStringify (v : Json) : jsonParse (jsonStringify v) = .ok v := by
  have h := parseValue_render v 0 ((v.render 0).length + 1) []
    (Nat.le_succ_of_le (size_le_length v 0)) endsNumber_nil
  simp only [List.append_nil] at h
  simp [jsonParse, jsonStringify, h, skipWs]

/-! ## The repository and the `POST /api/posts` handler -/

theorem readPosts_written (v : Json) : readPosts none (some (jsonStringify v)) = .ok v := by
  simp [readPosts, jsonParse_jsonStringify]

theorem readPosts_without_fault (fault : Option String) (file : Option String) (v : Json)
    (h : readPosts fault file = .ok v) : readPosts none file = .ok v := by
  cases file with
  | none => simpa [readPosts] using h
  | some data =>
    cases fault with
    | none => exact h
    | some m => simp [readPosts] at h

/-- A request that finds an array in the repository and whose write succeeds is answered 201
with the new post, and the repository then holds the new post in front of the array. -/
theorem handlePost_success (env : Env) (req : Request) (file : Option String) (items : List Json)
    (hread : readPosts env.readFault file = .ok (.arr items)) (hwrite : env.write = .done) :
    handlePost env req file
      = ({ status := 201, body := .json (createdPost (env, req)).toJson },
          some (jsonStringify (.arr ((createdPost (env, req)).toJson :: items)))) := by
  simp [handlePost, hread, unshift, writePosts, writeFileSync, hwrite, createdPost]

/-- A response 201 is given only when an array was read and the write succeeded. -/
theorem handlePost_created (env : Env) (req : Request) (file : Option String)
    (h : (handlePost env req file).1.status = 201) :
    ∃ items, readPosts env.readFault file = .ok (.arr items) ∧ env.write = .done := by
  unfold handlePost at h
  cases hread : readPosts env.readFault file with
  | error m => simp [hread, internalError] at h
  | ok posts =>
    cases posts with
    | arr items =>
      cases hwrite : env.write with
      | done => exact ⟨items, rfl, rfl⟩
      | refused m => simp [hread, unshift, writePosts, writeFileSync, hwrite, internalError] at h
      | interrupted m n =>
        simp [hread, unshift, writePosts, writeFileSync, hwrite, internalError] at h
    | null => simp [hread, unshift, internalError] at h
    | bool b => simp [hread, unshift, internalError] at h
    | num n => simp [hread, unshift, internalError] at h
    | str s => simp [hread, unshift, internalError] at h
    | obj ms => simp [hread, unshift, internalError] at h

/-- A request is answered 201 or 500. -/
theorem handlePost_status (env : Env) (req : Request) (file : Option String) :
    (handlePost env req file).1.status = 201 ∨ (handlePost env req file).1.status = 500 := by
  unfold handlePost
  cases readPosts env.readFault file with
  | error m => right; rfl
  | ok posts =>
    cases hu : unshift posts (newPost env req.text (req.media.map (uploadSingle env))).toJson with
    | error m => right; simp [hu, internalError]
    | ok posts1 =>
      cases hw : env.write with
      | done => left; simp [hu, writePosts, writeFileSync]
      | refused m => right; simp [hu, writePosts, writeFileSync, internalError]
      | interrupted m n => right; simp [hu, writePosts, writeFileSync, internalError]

/-- After successful ingestions the repository holds the created posts, newest first, in front
of what it held before, and each response carried the post it created. -/
theorem readPosts_ingestAll : ∀ (steps : List (Env × Request)) (file : Option String)
    (items : List Json), readPosts none file = .ok (.arr items) →
    (∀ r ∈ responses file steps, r.status = 201) →
    readPosts none (ingestAll file steps)
        = .ok (.arr (((steps.map createdPost).reverse.map Post.toJson) ++ items))
      ∧ responses file steps
        = steps.map fun step => { status := 201, body := .json (createdPost step).toJson } := by
  intro steps
  induction steps with
  | nil => intro file items h _; exact ⟨by simpa [ingestAll] using h, rfl⟩
  | cons step steps ih =>
    intro file items h hall
    have h201 : (handlePost step.1 step.2 file).1.status = 201 :=
      hall _ (by simp [responses])
    obtain ⟨items1, hread, hwrite⟩ := handlePost_created _ _ _ h201
    have heq : items1 = items := by
      have := readPosts_without_fault _ _ _ hread
      rw [h] at this
      simpa using this.symm
    subst heq
    have hstep := handlePost_success step.1 step.2 file items1 hread hwrite
    have hnext : readPosts none (handlePost step.1 step.2 file).2
        = .ok (.arr ((createdPost step).toJson :: items1)) := by
      rw [hstep]; exact readPosts_written _
    obtain ⟨h1, h2⟩ := ih (handlePost step.1 step.2 file).2 _ hnext
      (fun r hr => hall r (by simp only [responses, List.mem_cons]; exact Or.inr hr))
    refine ⟨?_, ?_⟩
    · simp only [ingestAll, h1, List.map_cons, List.reverse_cons, List.map_append,
        List.map_nil, List.append_assoc, List.singleton_append]
    · simp only [responses, h2, List.map_cons, List.cons.injEq, and_true]
      rw [hstep]

/-- Requests whose reads and writes meet no fault are all answered 201. -/
theorem responses_of_no_fault : ∀ (steps : List (Env × Request)) (file : Option String)
    (items : List Json), readPosts none file = .ok (.arr items) →
    (∀ step ∈ steps, step.1.readFault = none ∧ step.1.write = .done) →
    ∀ r ∈ responses file steps, r.status = 201 := by
  intro steps
  induction steps with
  | nil => intro file items _ _ r hr; simp [responses] at hr
  | cons step steps ih =>
    intro file items h hok r hr
    obtain ⟨hrf, hw⟩ := hok step (List.mem_cons_self _ _)
    have hread : readPosts step.1.readFault file = .ok (.arr items) := by rw [hrf]; exact h
    have hstep := handlePost_success step.1 step.2 file items hread hw
    simp only [responses, List.mem_cons] at hr
    rcases hr with hr | hr
    · rw [hr, hstep]
    · have hnext : readPosts none (handlePost step.1 step.2 file).2
          = .ok (.arr ((createdPost step).toJson :: items)) := by
        rw [hstep]; exact readPosts_written _
      exact ih _ _ hnext (fun st hst => hok st (List.mem_cons_of_mem _ hst)) r hr

theorem nullable_injective {a b : Option String} (h : nullable a = nullable b) : a = b := by
  cases a <;> cases b <;> simp_all [nullable]

theorem toJson_injective {p q : Post} (h : p.toJson = q.toJson) : p = q := by
  cases p; cases q
  simp only [Post.toJson, Json.obj.injEq, List.cons.injEq, Prod.mk.injEq, Json.num.injEq,
    Json.str.injEq, true_and, and_true] at h
  obtain ⟨h1, h2, h3, h4, h5, h6⟩ := h
  rw [nullable_injective h3, nullable_injective h4, nullable_injective h5, h1, h2, h6]

/-- C2: from a repository holding the collection `items` (an absent data file holds the empty
collection), after ingestions in sequence that were all answered 201, each with the post it
created, the feed query returns the created posts, last created first, followed by `items`
unchanged and in its original order; on an empty repository the feed query returns the empty
list. -/
theorem feed_newest_first (file : Option String) (items : List Json)
    (steps : List (Env × Request))
    (hfile : readPosts none file = .ok (.arr items))
    (hok : ∀ r ∈ responses file steps, r.status = 201) :
    responses file steps
        = (steps.map fun step => { status := 201, body := .json (createdPost step).toJson })
      ∧ readPosts none (ingestAll file steps)
        = .ok (.arr ((steps.map createdPost).reverse.map Post.toJson ++ items))
      ∧ handleGet none (ingestAll file steps)
        = { status := 200
            body := .json (.arr ((steps.map createdPost).reverse.map Post.toJson ++ items)) }
      ∧ handleGet none none = { status := 200, body := .json (.arr []) } := by
  obtain ⟨h, hresp⟩ := readPosts_ingestAll steps file items hfile hok
  refine ⟨hresp, h, ?_, rfl⟩
  simp [handleGet, h]

theorem feed_newest_first_witness :
    readPosts none (ingestAll none
        [(⟨11, 12, 13, none, .done⟩, ⟨some "A", none⟩),
          (⟨21, 22, 23, none, .done⟩, ⟨some "B", some ⟨"b.png", "image/png"⟩⟩),
          (⟨31, 32, 33, none, .done⟩, ⟨none, some ⟨"c.pdf", "application/pdf"⟩⟩)])
      = .ok (.arr
          ([createdPost (⟨31, 32, 33, none, .done⟩, ⟨none, some ⟨"c.pdf", "application/pdf"⟩⟩),
            createdPost (⟨21, 22, 23, none, .done⟩, ⟨some "B", some ⟨"b.png", "image/png"⟩⟩),
            createdPost (⟨11, 12, 13, none, .done⟩, ⟨some "A", none⟩)].map Post.toJson ++ [])) :=
  (feed_newest_first none []
    [(⟨11, 12, 13, none, .done⟩, ⟨some "A", none⟩),
      (⟨21, 22, 23, none, .done⟩, ⟨some "B", some ⟨"b.png", "image/png"⟩⟩),
      (⟨31, 32, 33, none, .done⟩, ⟨none, some ⟨"c.pdf", "application/pdf"⟩⟩)]
    rfl
    (responses_of_no_fault _ none [] rfl (by decide))).2.1

/-- C5: a request answered 201 returns the created post, and the next feed query returns that
same post, field for field, at index 0: the collection written by `writePosts` and read back by
`readPosts` starts with the created post unchanged. -/
theorem created_post_round_trip (env : Env) (req : Request) (file : Option String)
    (h : (handlePost env req file).1.status = 201) :
    ∃ rest : List Json,
      (handlePost env req file).1.body = .json (createdPost (env, req)).toJson
        ∧ (handlePost env req file).2
          = some (jsonStringify (.arr ((createdPost (env, req)).toJson :: rest)))
        ∧ readPosts none (handlePost env req file).2
          = .ok (.arr ((createdPost (env, req)).toJson :: rest))
        ∧ handleGet none (handlePost env req file).2
          = { status := 200, body := .json (.arr ((createdPost (env, req)).toJson :: rest)) }
        ∧ ∀ q : Post, q.toJson = (createdPost (env, req)).toJson → q = createdPost (env, req) := by
  obtain ⟨items, hread, hwrite⟩ := handlePost_created env req file h
  have hstep := handlePost_success env req file items hread hwrite
  refine ⟨items, by rw [hstep], by rw [hstep], ?_, ?_, fun q hq => toJson_injective hq⟩
  · rw [hstep]; exact readPosts_written _
  · rw [hstep]; simp [handleGet, readPosts_written]

theorem created_post_round_trip_witness :
    ∃ rest : List Json,
      (handlePost ⟨11, 12, 13, none, .done⟩ ⟨some "a \"b\"\n", some ⟨"cat.png", "image/png"⟩⟩
          none).1.body
        = .json (createdPost (⟨11, 12, 13, none, .done⟩,
            ⟨some "a \"b\"\n", some ⟨"cat.png", "image/png"⟩⟩)).toJson
        ∧ readPosts none
            (handlePost ⟨11, 12, 13, none, .done⟩
              ⟨some "a \"b\"\n", some ⟨"cat.png", "image/png"⟩⟩ none).2
          = .ok (.arr ((createdPost (⟨11, 12, 13, none, .done⟩,
              ⟨some "a \"b\"\n", some ⟨"cat.png", "image/png"⟩⟩)).toJson :: rest)) :=
  (created_post_round_trip ⟨11, 12, 13, none, .done⟩
      ⟨some "a \"b\"\n", some ⟨"cat.png", "image/png"⟩⟩ none (by decide)).imp
    fun _ hr => ⟨hr.1, hr.2.2.1⟩

/-- C3 as stated fails: with a data file that is not JSON, a submission with the non-empty text
`hello` and no file is answered 500. -/
theorem text_only_post_corrupt_file :
    "hello" ≠ ""
      ∧ (handlePost ⟨11, 12, 13, none, .done⟩ ⟨some "hello", none⟩ (some "oops")).1.status = 500
      ∧ (handlePost ⟨11, 12, 13, none, .done⟩ ⟨some "hello", none⟩ (some "oops")).2
        = some "oops" := by
  decide

/-- C3, amended: for a submission with a non-empty text and no file the post that the handler
builds has `media = null`, `mediaType = null` and the submitted text; the handler answers 201
with that post whenever the collection read is an array and the write succeeds, and answers 500
in every other case. -/
theorem text_only_post (env : Env) (text : String) (file : Option String) (htext : text ≠ "") :
    (createdPost (env, ⟨some text, none⟩)).media = none
      ∧ (createdPost (env, ⟨some text, none⟩)).mediaType = none
      ∧ (createdPost (env, ⟨some text, none⟩)).originalName = none
      ∧ (createdPost (env, ⟨some text, none⟩)).text = text
      ∧ (∀ items, readPosts env.readFault file = .ok (.arr items) → env.write = .done →
          (handlePost env ⟨some text, none⟩ file).1
            = { status := 201, body := .json (createdPost (env, ⟨some text, none⟩)).toJson })
      ∧ ((handlePost env ⟨some text, none⟩ file).1.status = 201 →
          ∃ items, readPosts env.readFault file = .ok (.arr items) ∧ env.write = .done)
      ∧ ((handlePost env ⟨some text, none⟩ file).1.status = 201
          ∨ (handlePost env ⟨some text, none⟩ file).1.status = 500) := by
  refine ⟨rfl, rfl, rfl, ?_, ?_, handlePost_created _ _ _, handlePost_status _ _ _⟩
  · simp [createdPost, newPost, textOrEmpty, htext]
  · intro items hread hwrite
    rw [handlePost_success env _ file items hread hwrite]

theorem text_only_post_witness :
    (createdPost (⟨11, 12, 13, none, .done⟩, ⟨some "hello", none⟩)).text = "hello"
      ∧ (handlePost ⟨11, 12, 13, none, .done⟩ ⟨some "hello", none⟩ none).1
        = { status := 201
            body := .json (createdPost (⟨11, 12, 13, none, .done⟩, ⟨some "hello", none⟩)).toJson } :=
  ⟨(text_only_post ⟨11, 12, 13, none, .done⟩ "hello" none (by decide)).2.2.2.1,
    (text_only_post ⟨11, 12, 13, none, .done⟩ "hello" none (by decide)).2.2.2.2.1 [] rfl rfl⟩

theorem createdPost_media_fields (step : Env × Request) :
    ((createdPost step).mediaType ≠ none ↔ (createdPost step).media ≠ none)
      ∧ ((createdPost step).originalName ≠ none ↔ (createdPost step).media ≠ none) := by
  obtain ⟨env, req⟩ := step
  cases hm : req.media <;> simp [createdPost, newPost, hm]

/-- C4: in every post that the handler creates, `mediaType` is non-null exactly when `media` is
non-null, and so is `originalName`; hence the same holds of every post of a collection reached
from the empty repository by successful ingestions. -/
theorem media_fields_together (env : Env) (req : Request) :
    ((createdPost (env, req)).mediaType ≠ none ↔ (createdPost (env, req)).media ≠ none)
      ∧ ((createdPost (env, req)).originalName ≠ none ↔ (createdPost (env, req)).media ≠ none)
      ∧ ∀ steps : List (Env × Request), (∀ r ∈ responses none steps, r.status = 201) →
          ∃ ps : List Post, readPosts none (ingestAll none steps) = .ok (collection ps)
            ∧ ∀ p ∈ ps, (p.mediaType ≠ none ↔ p.media ≠ none)
              ∧ (p.originalName ≠ none ↔ p.media ≠ none) := by
  refine ⟨(createdPost_media_fields _).1, (createdPost_media_fields _).2, fun steps hok => ?_⟩
  refine ⟨(steps.map createdPost).reverse, ?_, ?_⟩
  · have := (readPosts_ingestAll steps none [] rfl hok).1
    simpa [collection] using this
  · intro p hp
    simp only [List.mem_reverse, List.mem_map] at hp
    obtain ⟨step, _, rfl⟩ := hp
    exact createdPost_media_fields step

theorem media_fields_together_witness :
    ∃ ps : List Post,
      readPosts none (ingestAll none
          [(⟨11, 12, 13, none, .done⟩, ⟨some "A", none⟩),
            (⟨21, 22, 23, none, .done⟩, ⟨some "", some ⟨"b.png", "image/png"⟩⟩)])
        = .ok (collection ps)
      ∧ ∀ p ∈ ps, (p.mediaType ≠ none ↔ p.media ≠ none)
          ∧ (p.originalName ≠ none ↔ p.media ≠ none) :=
  (media_fields_together ⟨11, 12, 13, none, .done⟩ ⟨some "A", none⟩).2.2
    [(⟨11, 12, 13, none, .done⟩, ⟨some "A", none⟩),
      (⟨21, 22, 23, none, .done⟩, ⟨some "", some ⟨"b.png", "image/png"⟩⟩)]
    (responses_of_no_fault _ none [] rfl (by decide))

/-- C8 as stated fails: two posts ingested within the same millisecond, on a clock that never
goes back, are distinct posts of the collection with the same id. -/
theorem same_millisecond_same_id :
    (∀ r ∈ responses none
        [(⟨5, 5, 5, none, .done⟩, ⟨some "A", none⟩), (⟨5, 5, 5, none, .done⟩, ⟨some "B", none⟩)],
        r.status = 201)
      ∧ readPosts none (ingestAll none
          [(⟨5, 5, 5, none, .done⟩, ⟨some "A", none⟩), (⟨5, 5, 5, none, .done⟩, ⟨some "B", none⟩)])
        = .ok (collection [createdPost (⟨5, 5, 5, none, .done⟩, ⟨some "B", none⟩),
            createdPost (⟨5, 5, 5, none, .done⟩, ⟨some "A", none⟩)])
      ∧ createdPost (⟨5, 5, 5, none, .done⟩, ⟨some "B", none⟩)
        ≠ createdPost (⟨5, 5, 5, none, .done⟩, ⟨some "A", none⟩)
      ∧ (createdPost (⟨5, 5, 5, none, .done⟩, ⟨some "B", none⟩)).id
        = (createdPost (⟨5, 5, 5, none, .done⟩, ⟨some "A", none⟩)).id :=
  ⟨responses_of_no_fault _ none [] rfl (by decide),
    (readPosts_ingestAll _ none [] rfl (responses_of_no_fault _ none [] rfl (by decide))).1,
    by decide, rfl⟩

/-- C8, amended: after successful ingestions from the empty repository, the collection holds
the created posts, last created first, and the id of each is the clock reading of its request;
if the readings never decrease, the ids from index 0 to the end never increase; if the readings
strictly increase, the ids strictly decrease and no two posts share an id. -/
theorem ids_follow_clock (steps : List (Env × Request))
    (hok : ∀ r ∈ responses none steps, r.status = 201) :
    readPosts none (ingestAll none steps) = .ok (collection (steps.map createdPost).reverse)
      ∧ (steps.map createdPost).reverse.map Post.id = (steps.map fun st => st.1.nowId).reverse
      ∧ ((steps.map fun st => st.1.nowId).Pairwise (fun a b => a ≤ b) →
          ((steps.map createdPost).reverse.map Post.id).Pairwise (fun a b => b ≤ a))
      ∧ ((steps.map fun st => st.1.nowId).Pairwise (fun a b => a < b) →
          ((steps.map createdPost).reverse.map Post.id).Pairwise (fun a b => b < a)
            ∧ ((steps.map createdPost).reverse.map Post.id).Nodup) := by
  have hids : (steps.map createdPost).reverse.map Post.id
      = (steps.map fun st => st.1.nowId).reverse := by
    rw [List.map_reverse, List.map_map]
    rfl
  refine ⟨?_, hids, ?_, ?_⟩
  · have := (readPosts_ingestAll steps none [] rfl hok).1
    simpa [collection] using this
  · intro h
    rw [hids, List.pairwise_reverse]
    exact h
  · intro h
    have hdesc : ((steps.map createdPost).reverse.map Post.id).Pairwise (fun a b => b < a) := by
      rw [hids, List.pairwise_reverse]
      exact h
    exact ⟨hdesc, hdesc.imp (fun hab => (Nat.ne_of_lt hab).symm)⟩

theorem ids_follow_clock_witness :
    ((([(⟨11, 12, 13, none, .done⟩, ⟨some "A", none⟩),
        (⟨21, 22, 23, none, .done⟩, ⟨some "B", none⟩)] : List (Env × Request)).map
          createdPost).reverse.map Post.id).Pairwise (fun a b => b < a)
      ∧ ((([(⟨11, 12, 13, none, .done⟩, ⟨some "A", none⟩),
        (⟨21, 22, 23, none, .done⟩, ⟨some "B", none⟩)] : List (Env × Request)).map
          createdPost).reverse.map Post.id).Nodup :=
  (ids_follow_clock
    [(⟨11, 12, 13, none, .done⟩, ⟨some "A", none⟩), (⟨21, 22, 23, none, .done⟩, ⟨some "B", none⟩)]
    (responses_of_no_fault _ none [] rfl (by decide))).2.2.2 (by decide)

/-- C7 as stated fails: a write that throws after the data file was truncated is answered 500
with the message of the error, and the data file no longer holds the collection it held. -/
theorem interrupted_write_changes_file :
    (handlePost ⟨11, 12, 13, none, .interrupted "ENOSPC: no space left on device, write" 0⟩
        ⟨some "hello", none⟩ (some "[]")).1.status = 500
      ∧ (handlePost ⟨11, 12, 13, none, .interrupted "ENOSPC: no space left on device, write" 0⟩
        ⟨some "hello", none⟩ (some "[]")).2 = some ""
      ∧ (some "" : Option String) ≠ some "[]" := by
  decide

/-- C7, amended: when reading or parsing the collection fails, when the value read is not an
array, or when the write throws before the data file is opened, the handler answers 500 with
the plain text `Internal Server Error: ` followed by the message of the error, and the data
file is as it was; when the write throws after the data file was truncated, the answer is the
same and the data file holds the characters written so far.  None of these answers is 201. -/
theorem failure_is_reported (env : Env) (req : Request) (file : Option String) :
    (∀ m, readPosts env.readFault file = .error m →
        handlePost env req file = (internalError m, file))
      ∧ (∀ posts m, readPosts env.readFault file = .ok posts →
          unshift posts (createdPost (env, req)).toJson = .error m →
          handlePost env req file = (internalError m, file))
      ∧ (∀ items m, readPosts env.readFault file = .ok (.arr items) → env.write = .refused m →
          handlePost env req file = (internalError m, file))
      ∧ (∀ items m n, readPosts env.readFault file = .ok (.arr items) →
          env.write = .interrupted m n →
          handlePost env req file
            = (internalError m,
                some (String.mk ((jsonStringify
                  (.arr ((createdPost (env, req)).toJson :: items))).data.take n))))
      ∧ (∀ m, (internalError m).status = 500
          ∧ (internalError m).body = .text ("Internal Server Error: " ++ m)
          ∧ (internalError m).status ≠ 201) := by
  refine ⟨?_, ?_, ?_, ?_, fun m => ⟨rfl, rfl, by simp [internalError]⟩⟩
  · intro m h
    simp [handlePost, h]
  · intro posts m h hu
    simp only [createdPost] at hu
    simp [handlePost, h, hu]
  · intro items m h hw
    simp [handlePost, h, unshift, writePosts, writeFileSync, hw]
  · intro items m n h hw
    simp [handlePost, h, unshift, writePosts, writeFileSync, hw, createdPost]

theorem failure_is_reported_witness :
    handlePost ⟨11, 12, 13, none, .done⟩ ⟨some "hello", none⟩ (some "oops")
        = (internalError "Unexpected token in JSON", some "oops")
      ∧ handlePost ⟨11, 12, 13, some "EACCES: permission denied, open", .done⟩
          ⟨some "hello", none⟩ (some "[]")
        = (internalError "EACCES: permission denied, open", some "[]")
      ∧ handlePost ⟨11, 12, 13, none, .refused "EROFS: read-only file system, open"⟩
          ⟨some "hello", none⟩ none
        = (internalError "EROFS: read-only file system, open", none) :=
  ⟨(failure_is_reported ⟨11, 12, 13, none, .done⟩ ⟨some "hello", none⟩ (some "oops")).1
      "Unexpected token in JSON" rfl,
    (failure_is_reported ⟨11, 12, 13, some "EACCES: permission denied, open", .done⟩
      ⟨some "hello", none⟩ (some "[]")).1 "EACCES: permission denied, open" rfl,
    (failure_is_reported ⟨11, 12, 13, none, .refused "EROFS: read-only file system, open"⟩
      ⟨some "hello", none⟩ none).2.2.1 [] "EROFS: read-only file system, open" rfl rfl⟩

/-! ## `script.js`: the submit gate and the feed -/

theorem trim_length_pos (s : String) (h : (trim s).length > 0) : s ≠ "" := by
  rintro rfl
  revert h
  decide

/-- C6 as stated fails: the handler accepts a submission with an empty text and no file, and
stores a post with an empty text and a null media. -/
theorem empty_post_is_stored :
    (handlePost ⟨11, 12, 13, none, .done⟩ ⟨some "", none⟩ none).1.status = 201
      ∧ readPosts none (handlePost ⟨11, 12, 13, none, .done⟩ ⟨some "", none⟩ none).2
        = .ok (collection [createdPost (⟨11, 12, 13, none, .done⟩, ⟨some "", none⟩)])
      ∧ (createdPost (⟨11, 12, 13, none, .done⟩, ⟨some "", none⟩)).text = ""
      ∧ (createdPost (⟨11, 12, 13, none, .done⟩, ⟨some "", none⟩)).media = none :=
  ⟨by decide,
    by rw [handlePost_success ⟨11, 12, 13, none, .done⟩ ⟨some "", none⟩ none [] rfl rfl]
       exact readPosts_written _,
    rfl, rfl⟩

/-- C6, amended: a post that the handler creates has a non-empty text or a non-null media
exactly when the submission has a non-empty text or a file, which the handler does not check;
it holds of every submission that `createPost` sends while `validatePost` leaves the post
button enabled, whatever the parser of multer reports of the file. -/
theorem post_has_content (env : Env) (req : Request) :
    (((createdPost (env, req)).text ≠ "" ∨ (createdPost (env, req)).media ≠ none)
        ↔ ((∃ t, req.text = some t ∧ t ≠ "") ∨ req.media ≠ none))
      ∧ ∀ (busboy : ClientFile → FilePart) (c : Compose), validatePost c = true →
          req = parseForm busboy (createPost c) →
          (createdPost (env, req)).text ≠ "" ∨ (createdPost (env, req)).media ≠ none := by
  have key : ((createdPost (env, req)).text ≠ "" ∨ (createdPost (env, req)).media ≠ none)
      ↔ ((∃ t, req.text = some t ∧ t ≠ "") ∨ req.media ≠ none) := by
    cases ht : req.text with
    | none => cases hm : req.media <;> simp [createdPost, newPost, textOrEmpty, ht, hm]
    | some t =>
      by_cases h0 : t = ""
      · cases hm : req.media <;> simp [createdPost, newPost, textOrEmpty, ht, hm, h0]
      · cases hm : req.media <;> simp [createdPost, newPost, textOrEmpty, ht, hm, h0]
  refine ⟨key, fun busboy c hc hreq => key.2 ?_⟩
  subst hreq
  simp only [validatePost, Bool.or_eq_true, decide_eq_true_eq] at hc
  rcases hc with hc | hc
  · exact Or.inl ⟨c.postText, rfl, trim_length_pos _ hc⟩
  · right
    simp only [parseForm, createPost]
    cases hm : c.currentMedia with
    | none => simp [hm] at hc
    | some u => simp

theorem post_has_content_witness :
    (createdPost (⟨11, 12, 13, none, .done⟩,
        parseForm (fun f => ⟨f.name, f.type⟩) (createPost ⟨" hi ", none⟩))).text ≠ ""
      ∨ (createdPost (⟨11, 12, 13, none, .done⟩,
        parseForm (fun f => ⟨f.name, f.type⟩) (createPost ⟨" hi ", none⟩))).media ≠ none :=
  (post_has_content ⟨11, 12, 13, none, .done⟩
      (parseForm (fun f => ⟨f.name, f.type⟩) (createPost ⟨" hi ", none⟩))).2
    (fun f => ⟨f.name, f.type⟩) ⟨" hi ", none⟩ (by decide) rfl

theorem insertAfterCreateCard_spec (x card : Element) (after : List Element)
    (hcard : "create-post-card" ∈ card.classes) : ∀ before : List Element,
    (∀ e ∈ before, "create-post-card" ∉ e.classes) →
    insertAfterCreateCard x (before ++ card :: after) = some (before ++ card :: x :: after) := by
  intro before
  induction before with
  | nil => intro _; simp [insertAfterCreateCard, hcard]
  | cons e es ih =>
    intro h
    have he : "create-post-card" ∉ e.classes := h e (List.mem_cons_self _ _)
    have := ih (fun e1 h1 => h e1 (List.mem_cons_of_mem _ h1))
    simp [insertAfterCreateCard, he, this]

theorem forEachRender_spec (toLocaleString : String → String) (before : List Element)
    (card : Element) (hcard : "create-post-card" ∈ card.classes)
    (hbefore : ∀ e ∈ before, "create-post-card" ∉ e.classes) :
    ∀ (posts : List Post) (after : List Element),
    forEachRender toLocaleString (before ++ card :: after) posts
      = before ++ card :: (posts.reverse.map (postCard toLocaleString) ++ after) := by
  intro posts
  induction posts with
  | nil => intro after; simp [forEachRender]
  | cons p ps ih =>
    intro after
    have h1 := insertAfterCreateCard_spec (postCard toLocaleString p) card after hcard before
      hbefore
    simp only [forEachRender, renderPost, h1, ih, List.reverse_cons, List.map_append,
      List.map_cons, List.map_nil, List.append_assoc, List.singleton_append]

/-- C10: when the create-post card is a child of the content section, `loadPosts` on the list
`p0, ..., pn-1` that the server returned (newest first) leaves the children reading: what
stood before the create-post card, the card, the cards of `p0, ..., pn-1` in that order, and
what stood after the card before. -/
theorem loadPosts_keeps_server_order (toLocaleString : String → String)
    (before after : List Element) (card : Element) (posts : List Post)
    (hcard : "create-post-card" ∈ card.classes)
    (hbefore : ∀ e ∈ before, "create-post-card" ∉ e.classes) :
    loadPosts toLocaleString (before ++ card :: after) posts
      = before ++ card :: (posts.map (postCard toLocaleString) ++ after) := by
  unfold loadPosts
  rw [forEachRender_spec toLocaleString before card hcard hbefore, List.reverse_reverse]

theorem loadPosts_keeps_server_order_witness :
    loadPosts (fun s => s)
        ([⟨["profile"], "", "me"⟩] ++ ⟨["card", "create-post-card"], "", ""⟩
          :: [⟨["education"], "", "school"⟩])
        [⟨22, "B", none, none, none, "t2"⟩, ⟨12, "A", none, none, none, "t1"⟩]
      = [⟨["profile"], "", "me"⟩] ++ ⟨["card", "create-post-card"], "", ""⟩
          :: ([⟨22, "B", none, none, none, "t2"⟩, ⟨12, "A", none, none, none, "t1"⟩].map
              (postCard fun s => s) ++ [⟨["education"], "", "school"⟩]) :=
  loadPosts_keeps_server_order (fun s => s) [⟨["profile"], "", "me"⟩]
    [⟨["education"], "", "school"⟩] ⟨["card", "create-post-card"], "", ""⟩
    [⟨22, "B", none, none, none, "t2"⟩, ⟨12, "A", none, none, none, "t1"⟩] (by decide)
    (by decide)

end FluxAman
